import Mathlib

/-!
# Verification of the Inda list manager

Shallow embedding of the Inda to-do application's core logic:
the tolerant JSON recovery pipeline (`useGeminiAPI.ts`), the list/item
CRUD layer (`ListContext` / `ListView`), the AI regroup reconciliation
(`parseAIResponse` / `regroupListsWithAI`) and the per-list item
generation flow (`generateItems`).

JavaScript's `JSON.parse` is modelled by an executable recursive-descent
parser `jsonParse` over a `Json` value type; numeric literals are kept as
their matched source text (the application never does arithmetic on
parsed numbers).  Braces inside string and character literals are written
with the escapes \x7b and \x7d.
-/

namespace Inda

/-- JSON values as produced by `JSON.parse`.  A number is represented by the
numeral text that was matched (the code under verification never computes
with numeric values, it only passes them through). -/
inductive Json : Type where
  | null : Json
  | bool : Bool → Json
  | num : String → Json
  | str : String → Json
  | arr : List Json → Json
  | obj : List (String × Json) → Json

/-- JSON whitespace (the characters `JSON.parse` skips between tokens). -/
def isJsonWs (c : Char) : Bool :=
  c = ' ' ∨ c = '\t' ∨ c = '\n' ∨ c = '\r'

/-- Drop leading JSON whitespace. -/
def skipWs (cs : List Char) : List Char :=
  cs.dropWhile isJsonWs

/-- Decode one hexadecimal digit. -/
def hexVal (c : Char) : Option Nat :=
  if '0' ≤ c ∧ c ≤ '9' then some (c.toNat - '0'.toNat)
  else if 'a' ≤ c ∧ c ≤ 'f' then some (c.toNat - 'a'.toNat + 10)
  else if 'A' ≤ c ∧ c ≤ 'F' then some (c.toNat - 'A'.toNat + 10)
  else none

/-- Parse the body of a JSON string literal (the opening quote already
consumed); returns the decoded characters and the remaining input.
Raw control characters are rejected, as in `JSON.parse`. -/
def parseStrBody : List Char → Option (List Char × List Char)
  | [] => none
  | '"' :: rest => some ([], rest)
  | '\\' :: 'u' :: h1 :: h2 :: h3 :: h4 :: rest => do
    let a ← hexVal h1
    let b ← hexVal h2
    let c ← hexVal h3
    let d ← hexVal h4
    let (s, r) ← parseStrBody rest
    pure (Char.ofNat (((a * 16 + b) * 16 + c) * 16 + d) :: s, r)
  | '\\' :: e :: rest => do
    let c ← match e with
      | '"' => some '"'
      | '\\' => some '\\'
      | '/' => some '/'
      | 'n' => some '\n'
      | 't' => some '\t'
      | 'r' => some '\r'
      | 'b' => some (Char.ofNat 8)
      | 'f' => some (Char.ofNat 12)
      | _ => none
    let (s, r) ← parseStrBody rest
    pure (c :: s, r)
  | c :: rest =>
    if c.toNat < 32 then none
    else do
      let (s, r) ← parseStrBody rest
      pure (c :: s, r)

/-- Lex a JSON numeric literal (`-?int frac? exp?`, leading zeros rejected);
returns the matched characters and the rest. -/
def lexNum (cs : List Char) : Option (List Char × List Char) :=
  let (sgn, cs1) :=
    match cs with
    | '-' :: r => (['-'], r)
    | _ => (([] : List Char), cs)
  let intPart : Option (List Char × List Char) :=
    match cs1 with
    | '0' :: r => some (['0'], r)
    | c :: _ =>
      if c.isDigit then
        let ds := cs1.takeWhile Char.isDigit
        some (ds, cs1.drop ds.length)
      else none
    | [] => none
  match intPart with
  | none => none
  | some (ip, cs2) =>
    let (fp, cs3) :=
      match cs2 with
      | '.' :: r =>
        let ds := r.takeWhile Char.isDigit
        if ds = [] then (([] : List Char), cs2) else ('.' :: ds, r.drop ds.length)
      | _ => (([] : List Char), cs2)
    -- a '.' not followed by a digit makes JSON.parse fail; detect that case
    match cs3 with
    | '.' :: _ => none
    | _ =>
      let expRes : List Char × List Char × Bool :=
        match cs3 with
        | e :: r =>
          if e = 'e' ∨ e = 'E' then
            let (es, r2) :=
              match r with
              | s :: r2 => if s = '+' ∨ s = '-' then ([e, s], r2) else ([e], r)
              | [] => ([e], r)
            let ds := r2.takeWhile Char.isDigit
            if ds = [] then (([] : List Char), cs3, true)
            else (es ++ ds, r2.drop ds.length, false)
          else (([] : List Char), cs3, false)
        | [] => (([] : List Char), cs3, false)
      match expRes with
      | (es, cs5, bad) =>
        if bad then none else some (sgn ++ ip ++ fp ++ es, cs5)

/-- Insert a key/value pair into an object, overwriting the value in place
when the key already exists (the behaviour of property assignment that
`JSON.parse` uses for duplicate keys). -/
def objInsert (kvs : List (String × Json)) (k : String) (v : Json) :
    List (String × Json) :=
  if kvs.any (fun p => p.1 = k) then
    kvs.map (fun p => if p.1 = k then (k, v) else p)
  else kvs ++ [(k, v)]

mutual

/-- Parse one JSON value (fuel-indexed recursive descent). -/
def parseVal : Nat → List Char → Option (Json × List Char)
  | 0, _ => none
  | fuel + 1, cs =>
    match skipWs cs with
    | [] => none
    | 'n' :: 'u' :: 'l' :: 'l' :: rest => some (.null, rest)
    | 't' :: 'r' :: 'u' :: 'e' :: rest => some (.bool true, rest)
    | 'f' :: 'a' :: 'l' :: 's' :: 'e' :: rest => some (.bool false, rest)
    | '"' :: rest => do
      let (s, r) ← parseStrBody rest
      pure (.str (String.mk s), r)
    | '[' :: rest =>
      (match skipWs rest with
       | ']' :: r2 => some (.arr [], r2)
       | _ => do
         let (xs, r2) ← parseArrItems fuel rest
         pure (.arr xs, r2))
    | '\x7b' :: rest =>
      (match skipWs rest with
       | '\x7d' :: r2 => some (.obj [], r2)
       | _ => do
         let (kvs, r2) ← parseObjItems fuel [] rest
         pure (.obj kvs, r2))
    | c :: rest =>
      if c = '-' ∨ c.isDigit then do
        let (ds, r) ← lexNum (c :: rest)
        pure (.num (String.mk ds), r)
      else none

/-- Parse array elements (at least one) followed by `]`. -/
def parseArrItems : Nat → List Char → Option (List Json × List Char)
  | 0, _ => none
  | fuel + 1, cs => do
    let (v, r) ← parseVal fuel cs
    match skipWs r with
    | ',' :: r2 => do
      let (xs, r3) ← parseArrItems fuel r2
      pure (v :: xs, r3)
    | ']' :: r2 => pure ([v], r2)
    | _ => none

/-- Parse object entries (at least one) followed by the closing brace. -/
def parseObjItems : Nat → List (String × Json) → List Char →
    Option (List (String × Json) × List Char)
  | 0, _, _ => none
  | fuel + 1, acc, cs => do
    match skipWs cs with
    | '"' :: rest => do
      let (k, r) ← parseStrBody rest
      match skipWs r with
      | ':' :: r2 => do
        let (v, r3) ← parseVal fuel r2
        let acc2 := objInsert acc (String.mk k) v
        match skipWs r3 with
        | ',' :: r4 => parseObjItems fuel acc2 r4
        | '\x7d' :: r4 => pure (acc2, r4)
        | _ => none
      | _ => none
    | _ => none

end

/-- Model of JavaScript's `JSON.parse`: parse a complete JSON value,
requiring only whitespace to remain; `none` models a thrown `SyntaxError`. -/
def jsonParse (s : String) : Option Json :=
  match parseVal (s.length + 2) s.data with
  | some (v, rest) => if skipWs rest = [] then some v else none
  | none => none

/-! ## Tolerant JSON recovery (`sanitizeJsonString` / `robustJsonParse`
from `src/hooks/useGeminiAPI.ts`) -/

/-- The backtick character. -/
def btick : Char := Char.ofNat 96

/-- `"json"` preceded by three backticks. -/
def fenceJson : List Char := [btick, btick, btick, 'j', 's', 'o', 'n']

/-- Three backticks. -/
def fencePlain : List Char := [btick, btick, btick]

/-- Model of `jsonStr.replace(/```json|```/g, '')`: left-to-right scan
removing every fence marker, preferring the longer alternative. -/
def stripFences : Nat → List Char → List Char
  | 0, cs => cs
  | fuel + 1, cs =>
    if fenceJson.isPrefixOf cs then stripFences fuel (cs.drop 7)
    else if fencePlain.isPrefixOf cs then stripFences fuel (cs.drop 3)
    else
      match cs with
      | [] => []
      | c :: rest => c :: stripFences fuel rest

/-- Model of `String.prototype.trim` (whitespace at both ends removed). -/
def jsTrimChars (cs : List Char) : List Char :=
  ((cs.dropWhile isJsonWs).reverse.dropWhile isJsonWs).reverse

/-- `trim` on strings. -/
def jsTrim (s : String) : String :=
  String.mk (jsTrimChars s.data)

/-- Index of the first occurrence of `c`, `none` for `indexOf` = -1. -/
def idxOf (c : Char) (cs : List Char) : Option Nat :=
  let i := cs.findIdx (fun x => x = c)
  if i < cs.length then some i else none

/-- Index of the last occurrence of `c`, `none` for `lastIndexOf` = -1. -/
def lastIdxOf (c : Char) (cs : List Char) : Option Nat :=
  match idxOf c cs.reverse with
  | some i => some (cs.length - 1 - i)
  | none => none

/-- Model of `cleaned.replace(/,\s*([}\]])/g, '$1')`: remove a comma that is
followed (over whitespace) by a closing brace or bracket. -/
def stripTrailingCommas : Nat → List Char → List Char
  | 0, cs => cs
  | fuel + 1, cs =>
    match cs with
    | [] => []
    | x :: rest =>
      if x = ',' then
        match rest.dropWhile isJsonWs with
        | b :: r2 =>
          if b = '\x7d' ∨ b = ']' then b :: stripTrailingCommas fuel r2
          else x :: stripTrailingCommas fuel rest
        | [] => x :: stripTrailingCommas fuel rest
      else x :: stripTrailingCommas fuel rest

/-- Characters matched by `[a-zA-Z0-9_]`. -/
def isIdentChar (c : Char) : Bool :=
  ('a' ≤ c ∧ c ≤ 'z') ∨ ('A' ≤ c ∧ c ≤ 'Z') ∨ ('0' ≤ c ∧ c ≤ '9') ∨ c = '_'

/-- Model of `cleaned.replace(/(\{|,)\s*([a-zA-Z0-9_]+)\s*:/g, '$1"$2":')`:
after `{` or `,`, a bare identifier key before a colon gets quoted (the
surrounding whitespace is dropped by the replacement). -/
def quoteBareKeys : Nat → List Char → List Char
  | 0, cs => cs
  | fuel + 1, cs =>
    match cs with
    | [] => []
    | x :: rest =>
      if x = '\x7b' ∨ x = ',' then
        let s1 := rest.dropWhile isJsonWs
        let ident := s1.takeWhile isIdentChar
        let s2 := (s1.drop ident.length).dropWhile isJsonWs
        if ident ≠ [] then
          match s2 with
          | ':' :: r2 => x :: '"' :: (ident ++ '"' :: ':' :: quoteBareKeys fuel r2)
          | _ => x :: quoteBareKeys fuel rest
        else x :: quoteBareKeys fuel rest
      else x :: quoteBareKeys fuel rest

/-- Model of `sanitizeJsonString` from `useGeminiAPI.ts`: strip code fences,
trim, cut the string down to the outermost brace/bracket span, remove
trailing commas, quote bare keys. -/
def sanitizeJsonString (s : String) : String :=
  let cleaned := stripFences (s.data.length + 1) s.data
  let cleaned := jsTrimChars cleaned
  -- if (!cleaned.startsWith('{') && !cleaned.startsWith('['))
  let startsOk := cleaned.head? = some '\x7b' ∨ cleaned.head? = some '['
  let cleaned :=
    if startsOk then cleaned
    else
      match idxOf '\x7b' cleaned, idxOf '[' cleaned with
      | some oS, some aS => if oS < aS then cleaned.drop oS else cleaned.drop aS
      | some oS, none => cleaned.drop oS
      | none, some aS => cleaned.drop aS
      | none, none => cleaned
  -- if (!cleaned.endsWith('}') && !cleaned.endsWith(']'))
  let endsOk := cleaned.getLast? = some '\x7d' ∨ cleaned.getLast? = some ']'
  let cleaned :=
    if endsOk then cleaned
    else
      match lastIdxOf '\x7d' cleaned, lastIdxOf ']' cleaned with
      | some oE, some aE => if oE > aE then cleaned.take (oE + 1) else cleaned.take (aE + 1)
      | some oE, none => cleaned.take (oE + 1)
      | none, some aE => cleaned.take (aE + 1)
      | none, none => cleaned
  let cleaned := stripTrailingCommas (cleaned.length + 1) cleaned
  let cleaned := quoteBareKeys (cleaned.length + 1) cleaned
  String.mk cleaned

mutual

/-- Model of the bounded-nesting extraction regex alternative
`\{(?:[^{}]|(?:\{(?:[^{}]|(?:\{[^{}]*\}))*\}))*\}` (and its bracket twin):
match a delimited span starting at the head of the input, with `d` further
nesting levels allowed below the current one.  Returns the matched span and
the rest. -/
def reSpan (o c : Char) : Nat → Nat → List Char → Option (List Char × List Char)
  | _, 0, _ => none
  | d, fuel + 1, cs =>
    match cs with
    | x :: rest =>
      if x = o then (reBody o c d fuel rest).map (fun p => (x :: p.1, p.2))
      else none
    | [] => none

/-- Matches `(alternatives)*` followed by the closing delimiter; the matched
text includes the closing delimiter. -/
def reBody (o c : Char) : Nat → Nat → List Char → Option (List Char × List Char)
  | _, 0, _ => none
  | d, fuel + 1, cs =>
    match cs with
    | [] => none
    | x :: rest =>
      if x = c then some ([x], rest)
      else if x = o then
        match d with
        | 0 => none
        | d' + 1 =>
          match reSpan o c d' fuel (x :: rest) with
          | none => none
          | some (m, r) => (reBody o c d fuel r).map (fun p => (m ++ p.1, p.2))
      else (reBody o c d fuel rest).map (fun p => (x :: p.1, p.2))

end

/-- Model of
`jsonStr.match(/\{(?:[^{}]|(?:\{(?:[^{}]|(?:\{[^{}]*\}))*\}))*\}|\[...\]/)`:
the first (leftmost) span matched by the brace alternative or, failing that
at the same position, the bracket alternative. -/
def extractJsonSpan : List Char → Option (List Char)
  | [] => none
  | cs@(_ :: rest) =>
    match reSpan '\x7b' '\x7d' 2 (cs.length + 1) cs with
    | some (m, _) => some m
    | none =>
      match reSpan '[' ']' 2 (cs.length + 1) cs with
      | some (m, _) => some m
      | none => extractJsonSpan rest

/-- Model of `robustJsonParse` from `useGeminiAPI.ts`: direct parse, then
parse of the sanitized string, then parse of the first extracted
brace/bracket span; `Except.error` carries the thrown error message. -/
def robustJsonParse (s : String) : Except String Json :=
  match jsonParse s with
  | some v => .ok v
  | none =>
    match jsonParse (sanitizeJsonString s) with
    | some v => .ok v
    | none =>
      match extractJsonSpan s.data with
      | some m =>
        match jsonParse (String.mk m) with
        | some v => .ok v
        | none => .error "Failed to parse response as valid JSON after multiple attempts"
      | none => .error "Could not extract valid JSON from response"

/-! ## Data model and CRUD layer (`ListContext` in `ToastContext.tsx`;
the standalone `ListView.tsx` duplicates the same operation bodies).

TypeScript's optional `completed?: boolean` is modelled as a `Bool`
(`undefined` behaves as `false` in every check the code performs on it). -/

/-- A to-do entry (`Item` in `ListContext`). -/
structure Item where
  id : String
  value : String
  completed : Bool
deriving DecidableEq

/-- A named, ordered collection of items (`ListData`). -/
structure ListData where
  id : String
  title : String
  items : List Item
deriving DecidableEq

/-- `lists.map((list, index) => ...)` — map with the element index. -/
def mapWithIndexAux (f : Nat → α → β) : Nat → List α → List β
  | _, [] => []
  | i, x :: xs => f i x :: mapWithIndexAux f (i + 1) xs

/-- Map a function that also receives the element's index. -/
def mapWithIndex (f : Nat → α → β) (l : List α) : List β :=
  mapWithIndexAux f 0 l

/-- `addList`: append a fresh empty list titled "New List".  The identifier
(`Date.now().toString()` in the source) is supplied by the caller. -/
def addList (newListId : String) (lists : List ListData) : List ListData :=
  lists ++ [{ id := newListId, title := "New List", items := [] }]

/-- `addItem`: append a fresh empty item to the list at `listIndex`.  The
identifier (`Date.now().toString()`) is supplied by the caller. -/
def addItem (newItemId : String) (lists : List ListData) (listIndex : Nat) :
    List ListData :=
  mapWithIndex (fun index l =>
    if index = listIndex then
      { l with items := l.items ++ [{ id := newItemId, value := "", completed := false }] }
    else l) lists

/-- `updateItem`: replace the text of the item with identifier `itemId`
inside the list at `listIndex`. -/
def updateItem (lists : List ListData) (listIndex : Nat) (itemId : String)
    (newValue : String) : List ListData :=
  mapWithIndex (fun index l =>
    if index = listIndex then
      { l with items := l.items.map (fun item =>
          if item.id = itemId then { item with value := newValue } else item) }
    else l) lists

/-- `updateTitle`: rename the list at `listIndex`. -/
def updateTitle (lists : List ListData) (listIndex : Nat) (newTitle : String) :
    List ListData :=
  mapWithIndex (fun index l =>
    if index = listIndex then { l with title := newTitle } else l) lists

/-- `reorderItems`: replace the item array of the list at `listIndex` by a
caller-supplied ordering. -/
def reorderItems (lists : List ListData) (listIndex : Nat) (newOrder : List Item) :
    List ListData :=
  mapWithIndex (fun index l =>
    if index = listIndex then { l with items := newOrder } else l) lists

/-- `deleteItem`: remove the item with identifier `itemId` from the list at
`listIndex`. -/
def deleteItem (lists : List ListData) (listIndex : Nat) (itemId : String) :
    List ListData :=
  mapWithIndex (fun index l =>
    if index = listIndex then
      { l with items := l.items.filter (fun item => item.id ≠ itemId) }
    else l) lists

/-- `toggleComplete`: flip the completion flag of the item with identifier
`itemId` inside the list at `listIndex`. -/
def toggleComplete (lists : List ListData) (listIndex : Nat) (itemId : String) :
    List ListData :=
  mapWithIndex (fun index l =>
    if index = listIndex then
      { l with items := l.items.map (fun item =>
          if item.id = itemId then { item with completed := !item.completed } else item) }
    else l) lists

/-- `replaceLists`: replace the whole collection. -/
def replaceLists (newLists : List ListData) (_lists : List ListData) : List ListData :=
  newLists

/-- The hard-coded default collection of `ListContext.getDefaultLists`. -/
def getDefaultLists : List ListData :=
  [{ id := "list-1"
   , title := "0.0 Inda 101"
   , items :=
      [ { id := "item-1", value := "add item and save using the buttons", completed := false }
      , { id := "item-2", value := "Hover to ☑️ check or ❌ delete the item", completed := false }
      , { id := "item-3", value := "Double-click to edit list title and item text", completed := false }
      , { id := "item-5", value := "completed item looks like this", completed := true } ] }]

/-- `clearAllData` of `ListContext`: after the user confirms, the storage key
is removed and the in-memory collection is set to the EMPTY array. -/
def clearAllData (confirmed : Bool) (lists : List ListData) : List ListData :=
  if confirmed then [] else lists

/-- The hard-coded default collection of the standalone `ListView.tsx`. -/
def getDefaultListsLV : List ListData :=
  [{ id := "list-1"
   , title := "My First List"
   , items :=
      [ { id := "item-1", value := "Item 1", completed := false }
      , { id := "item-2", value := "Item 2", completed := false } ] }]

/-- `clearAllData` of the standalone `ListView.tsx`: after the user confirms,
the collection is reset to that file's defaults. -/
def clearAllDataLV (confirmed : Bool) (lists : List ListData) : List ListData :=
  if confirmed then getDefaultListsLV else lists

/-- The `useState` initializer of `ListProvider`: read the storage key;
`.inr` is the fallback to `getDefaultLists` (key absent or `JSON.parse`
threw), `.inl j` is the parsed JSON adopted as state through the
source's unchecked cast (`return JSON.parse(savedLists)`, no shape
validation).  The initializer never throws: `JSON.parse` errors are caught. -/
def loadLists (stored : Option String) : Json ⊕ List ListData :=
  match stored with
  | none => .inr getDefaultLists
  | some s =>
    match jsonParse s with
    | some j => .inl j
    | none => .inr getDefaultLists

/-! ## AI regroup reconciliation (`parseAIResponse`, `regroupListsWithAI`,
`handleConfirmRegroup`, `handleCancelRegroup` in the context-based
`ListView`).

A field the response may lack is an `Option`; absent strings behave as
`undefined`, which is falsy exactly like the empty string in every check
the code performs (`!item.id`, `!item.value`, `category.title?.trim() ||`),
so response item fields use `""` for "missing".  The list identifiers
minted per category (`list-${Date.now()}-${random}` ) are modelled by a
caller-supplied `mint` function of the category index. -/

/-- An item record inside the AI's regroup response (`ReorganizedItem`);
`""` models a missing `id`/`value`, `completed` is the JS truthiness
`!!item.completed`. -/
structure RItem where
  id : String
  value : String
  completed : Bool
deriving DecidableEq

/-- A category inside the AI's regroup response (`ReorganizedList`). -/
structure RCategory where
  title : Option String
  items : List RItem
deriving DecidableEq

/-- The parsed regroup response (`AIReorganizeResponse`): all fields
optional. -/
structure AIReorganizeResponse where
  lists : Option (List RCategory) := none
  title : Option String := none
  items : Option (List RItem) := none
deriving DecidableEq

/-- JS truthiness of an optional string (`undefined` and `""` are falsy). -/
def truthyStr : Option String → Bool
  | none => false
  | some s => s ≠ ""

/-- All items of the collection in order (`lists.forEach(l => l.items...)`). -/
def allItems (lists : List ListData) : List Item :=
  (lists.map (fun l => l.items)).flatten

/-- The `existingItemsMap` lookup: a `Map` built by inserting every item of
every list keyed by `id`, so a later duplicate overwrites an earlier one —
the last occurrence wins. -/
def itemLookup (lists : List ListData) (id : String) : Option Item :=
  (allItems lists).reverse.find? (fun item => item.id = id)

/-- `category.title?.trim() || "Unnamed Category"`. -/
def categoryTitle : Option String → String
  | none => "Unnamed Category"
  | some t => if jsTrim t = "" then "Unnamed Category" else jsTrim t

/-- Model of `parseAIResponse`: normalize a bare single-category response,
reject a response without a `lists` array, and rebuild each category
against the current state (see the per-item logic in the source:
drop on missing id/value, adopt the existing item's fields on an id hit
with the AI's trimmed text, synthesize otherwise, then drop items whose
trimmed text is empty).  `Except.error` carries the thrown message. -/
def parseAIResponse (mint : Nat → String) (lists : List ListData)
    (parsedResponse : AIReorganizeResponse) : Except String (List ListData) :=
  let parsedResponse :=
    if parsedResponse.lists.isNone ∧ truthyStr parsedResponse.title ∧
        parsedResponse.items.isSome then
      { lists := some [{ title := parsedResponse.title
                       , items := parsedResponse.items.getD [] }] }
    else parsedResponse
  match parsedResponse.lists with
  | none =>
    .error "AI response error: Expected a top-level \"lists\" array containing category objects, but received an invalid structure."
  | some cats =>
    .ok (mapWithIndex (fun k category =>
      { id := mint k
      , title := categoryTitle category.title
      , items :=
          ((category.items.map (fun item =>
              if item.id = "" ∨ item.value = "" then none
              else
                match itemLookup lists item.id with
                | some existingItem => some { existingItem with value := jsTrim item.value }
                | none =>
                  some { id := item.id, value := jsTrim item.value
                       , completed := item.completed })).filterMap id).filter
            (fun item => jsTrim item.value ≠ "") }) cats)

/-- Total item count, `lists.reduce((sum, list) => sum + list.items.length, 0)`. -/
def countItems (lists : List ListData) : Nat :=
  lists.foldl (fun sum list => sum + list.items.length) 0

/-- The regroup-related component state of the context-based `ListView`. -/
structure ViewState where
  lists : List ListData
  isRegrouping : Bool
  showRegroupPreview : Bool
  suggestedRegrouping : Option (List ListData)
deriving DecidableEq

/-- Model of `regroupListsWithAI`.  `apiResult` is what
`await regroupApi.execute()` produced (`none` = it returned `null`).
Returns the component state after the handler settles together with the
toast message it showed (`none` on the success path, where the suggestion
is stored for preview and nothing is committed). -/
def regroupListsWithAI (mint : Nat → String) (s : ViewState)
    (apiResult : Option AIReorganizeResponse) : ViewState × Option String :=
  if s.lists.length = 0 then
    (s, some "Add some lists before regrouping.")
  else
    -- setSuggestedRegrouping(null); setShowRegroupPreview(false); setIsRegrouping(true)
    let totalItems := countItems s.lists
    let attempt : Except String (List ListData) :=
      if totalItems = 0 then
        .error "No items to regroup. Please add some items first."
      else
        match apiResult with
        | none => .error "Failed to get response from AI service"
        | some result =>
          match parseAIResponse mint s.lists result with
          | .error e => .error e
          | .ok newLists =>
            if countItems newLists ≠ totalItems then
              .error "Some items were lost during regrouping. Operation cancelled."
            else if newLists.length > 0 then .ok newLists
            else .error "AI did not return a valid regrouping structure."
    match attempt with
    | .ok newLists =>
      ({ s with suggestedRegrouping := some newLists
              , showRegroupPreview := true
              , isRegrouping := false }, none)
    | .error e =>
      ({ s with isRegrouping := false
              , suggestedRegrouping := none
              , showRegroupPreview := false },
       some ("Failed to regroup lists: " ++ e))

/-- Model of `handleConfirmRegroup`: only an explicit confirm commits the
stored suggestion via `replaceLists`. -/
def handleConfirmRegroup (s : ViewState) : ViewState :=
  match s.suggestedRegrouping with
  | some suggestion =>
    { s with lists := replaceLists suggestion s.lists
           , suggestedRegrouping := none, showRegroupPreview := false }
  | none => { s with suggestedRegrouping := none, showRegroupPreview := false }

/-- Model of `handleCancelRegroup`: discard the suggestion, no state change. -/
def handleCancelRegroup (s : ViewState) : ViewState :=
  { s with suggestedRegrouping := none, showRegroupPreview := false }

/-! ## Item generation (`generateItems` in `List.tsx`, the variant using the
Gemini hook).  The API result is the JSON the hook parsed out of the
reply (`none` models `execute()` returning `null`). -/

mutual

/-- JavaScript `String(x)` on a parsed JSON value. -/
def jsToString : Json → String
  | .null => "null"
  | .bool b => if b then "true" else "false"
  | .num lit => lit
  | .str s => s
  | .arr xs => jsArrToString xs
  | .obj _ => "[object Object]"

/-- `Array.prototype.toString`: elements joined with commas, `null` and
`undefined` rendering as the empty string. -/
def jsArrToString : List Json → String
  | [] => ""
  | [x] => jsElemToString x
  | x :: xs => jsElemToString x ++ "," ++ jsArrToString xs

/-- One array element under `Array.prototype.toString`. -/
def jsElemToString : Json → String
  | .null => ""
  | j => jsToString j

end

/-- Escape one character for a JSON string literal (`JSON.stringify`). -/
def stringifyChar (c : Char) : List Char :=
  if c = '"' then ['\\', '"']
  else if c = '\\' then ['\\', '\\']
  else if c = '\n' then ['\\', 'n']
  else if c = '\t' then ['\\', 't']
  else if c = '\r' then ['\\', 'r']
  else if c = Char.ofNat 8 then ['\\', 'b']
  else if c = Char.ofNat 12 then ['\\', 'f']
  else [c]

mutual

/-- JavaScript `JSON.stringify` on a parsed JSON value (no indentation). -/
def jsonStringify : Json → String
  | .null => "null"
  | .bool b => if b then "true" else "false"
  | .num lit => lit
  | .str s => "\"" ++ String.mk (s.data.flatMap stringifyChar) ++ "\""
  | .arr xs => "[" ++ stringifyList xs ++ "]"
  | .obj kvs => "\x7b" ++ stringifyObj kvs ++ "\x7d"

/-- Comma-separated serialized array elements. -/
def stringifyList : List Json → String
  | [] => ""
  | [x] => jsonStringify x
  | x :: xs => jsonStringify x ++ "," ++ stringifyList xs

/-- Comma-separated serialized object entries. -/
def stringifyObj : List (String × Json) → String
  | [] => ""
  | [(k, v)] => jsonStringify (.str k) ++ ":" ++ jsonStringify v
  | (k, v) :: kvs => jsonStringify (.str k) ++ ":" ++ jsonStringify v ++ "," ++ stringifyObj kvs

end

/-- Whether a numeric literal denotes zero (all mantissa digits are `0`). -/
def numLitIsZero (lit : String) : Bool :=
  let mantissa := lit.data.takeWhile (fun c => c ≠ 'e' ∧ c ≠ 'E')
  mantissa.all (fun c => ¬(c.isDigit ∧ c ≠ '0'))

/-- JS truthiness of a parsed JSON value (`if (!result) ...`). -/
def jsTruthy : Json → Bool
  | .null => false
  | .bool b => b
  | .num lit => ¬ numLitIsZero lit
  | .str s => s ≠ ""
  | .arr _ => true
  | .obj _ => true

/-- Property access on a parsed JSON object (`'items' in result` +
`result.items`): the value stored under `k`, if any. -/
def jsGet (kvs : List (String × Json)) (k : String) : Option Json :=
  kvs.find? (fun p => p.1 = k)  |>.map (fun p => p.2)

/-- The normalization half of `generateItems`: turn the parsed reply into a
list of raw item strings, across the possible shapes (bare array; object
with an `items` array; object with a `text` field holding a JSON array,
falling back to the raw text when its parse fails OR parses to a
non-array — both land in the same `catch`; any other object stringified
as a single fallback item; a primitive is an error). -/
def generateItemsCore (result : Json) : Except String (List String) :=
  match result with
  | .arr xs => .ok (xs.map (fun item => match item with | .str s => s | j => jsToString j))
  | .obj kvs =>
    match jsGet kvs "items" with
    | some (.arr xs) =>
      .ok (xs.map (fun item => match item with | .str s => s | j => jsToString j))
    | _ =>
      match jsGet kvs "text" with
      | some (.str t) =>
        (match jsonParse t with
         | some (.arr xs) =>
           .ok (xs.map (fun item => match item with | .str s => s | j => jsToString j))
         | _ => .ok [t])
      | _ => .ok [jsonStringify result]
  | _ => .error "Unexpected AI response format: Expected an array or object."

/-- The items `generateItems` appends on success: surviving strings after
the empty-after-trim filter, each given a minted identifier
(`item-${Date.now()}-${random}`, modelled by `mint` over the position)
and `completed := false`.  `none` models every path that ends in the
`catch` block (null/falsy reply, primitive reply). -/
def genOutcome (mint : Nat → String) (apiResult : Option Json) : Option (List Item) :=
  match apiResult with
  | none => none
  | some result =>
    if ¬ jsTruthy result then none   -- if (!result) throw ...
    else
      match generateItemsCore result with
      | .error _ => none
      | .ok items =>
        let items := items.filter (fun item => jsTrim item ≠ "")
        some (mapWithIndex (fun k itemValue =>
          { id := mint k, value := jsTrim itemValue, completed := false }) items)

/-- Model of the whole `generateItems` handler at the collection level: on
success the target list's items become `list.items ++ newItems`
(committed through `reorderItems`); every failure path leaves the
collection unchanged. -/
def generateItemsStep (mint : Nat → String) (lists : List ListData)
    (listIndex : Nat) (apiResult : Option Json) : List ListData :=
  match lists[listIndex]?, genOutcome mint apiResult with
  | some list, some newItems => reorderItems lists listIndex (list.items ++ newItems)
  | _, _ => lists

/-! ## Operation traces (for the identifier-uniqueness invariant).

One user-level state transition of the store.  Minted identifiers
(`Date.now().toString()`, `item-${Date.now()}-${random}`) appear as data
of the operation: they are the values the clock/randomness oracle
produced during that transition. -/

/-- A state-changing operation that the uniqueness claim ranges over. -/
inductive Op where
  | addList (newListId : String)
  | addItem (listIndex : Nat) (newItemId : String)
  | updateItem (listIndex : Nat) (itemId : String) (newValue : String)
  | updateTitle (listIndex : Nat) (newTitle : String)
  | deleteItem (listIndex : Nat) (itemId : String)
  | toggleComplete (listIndex : Nat) (itemId : String)
  | generate (listIndex : Nat) (mint : Nat → String) (apiResult : Option Json)

/-- Apply one operation to the collection. -/
def applyOp (lists : List ListData) : Op → List ListData
  | .addList newListId => addList newListId lists
  | .addItem listIndex newItemId => addItem newItemId lists listIndex
  | .updateItem listIndex itemId newValue => updateItem lists listIndex itemId newValue
  | .updateTitle listIndex newTitle => updateTitle lists listIndex newTitle
  | .deleteItem listIndex itemId => deleteItem lists listIndex itemId
  | .toggleComplete listIndex itemId => toggleComplete lists listIndex itemId
  | .generate listIndex mint apiResult => generateItemsStep mint lists listIndex apiResult

/-- Apply a sequence of operations left to right. -/
def applyOps (lists : List ListData) : List Op → List ListData
  | [] => lists
  | op :: ops => applyOps (applyOp lists op) ops

/-- All item identifiers of the collection, in order. -/
def allIds (lists : List ListData) : List String :=
  (allItems lists).map (fun item => item.id)

/-- The item identifiers an operation mints. -/
def mintedIds : Op → List String
  | .addItem _ newItemId => [newItemId]
  | .generate _ mint apiResult =>
    ((genOutcome mint apiResult).getD []).map (fun item => item.id)
  | _ => []

/-- The freshness the source relies on (but does not enforce): the
identifiers minted by an operation are distinct among themselves and do
not occur in the current state. -/
def FreshOp (lists : List ListData) (op : Op) : Prop :=
  (mintedIds op).Nodup ∧ ∀ id ∈ mintedIds op, id ∉ allIds lists

/-- Freshness along a whole trace. -/
def FreshTrace (lists : List ListData) : List Op → Prop
  | [] => True
  | op :: ops => FreshOp lists op ∧ FreshTrace (applyOp lists op) ops

/-- Spec-side counterpart for the reconciliation refinement, written from
the claim's words: mint a new list identifier; use the category's trimmed
title or "Unnamed Category" when blank; drop items whose id or value is
missing; on an id hit keep the existing item's stored fields but adopt
the AI's trimmed text; on an unknown id synthesize a new item from the
response fields; finally drop any item whose trimmed text is empty. -/
def reconcileCategorySpec (newListId : String) (lookup : String → Option Item)
    (category : RCategory) : ListData :=
  { id := newListId
  , title :=
      if jsTrim (category.title.getD "") = "" then "Unnamed Category"
      else jsTrim (category.title.getD "")
  , items := category.items.filterMap (fun item =>
      if item.id = "" ∨ item.value = "" then none
      else
        let adopted :=
          match lookup item.id with
          | some existing => { existing with value := jsTrim item.value }
          | none => { id := item.id, value := jsTrim item.value
                    , completed := item.completed }
        if jsTrim adopted.value = "" then none else some adopted) }

/-! ## Helper lemmas -/

theorem length_mapWithIndexAux (f : Nat → α → β) (n : Nat) (l : List α) :
    (mapWithIndexAux f n l).length = l.length := by
  induction l generalizing n with
  | nil => rfl
  | cons x xs ih => simp [mapWithIndexAux, ih]

theorem length_mapWithIndex (f : Nat → α → β) (l : List α) :
    (mapWithIndex f l).length = l.length :=
  length_mapWithIndexAux f 0 l

theorem getElem?_mapWithIndexAux (f : Nat → α → β) (n : Nat) (l : List α) (j : Nat) :
    (mapWithIndexAux f n l)[j]? = (l[j]?).map (f (n + j)) := by
  induction l generalizing n j with
  | nil => simp [mapWithIndexAux]
  | cons x xs ih =>
    cases j with
    | zero => simp [mapWithIndexAux]
    | succ j =>
      rw [show n + (j + 1) = (n + 1) + j by omega]
      simp only [mapWithIndexAux, List.getElem?_cons_succ, ih (n + 1) j]

theorem getElem?_mapWithIndex (f : Nat → α → β) (l : List α) (j : Nat) :
    (mapWithIndex f l)[j]? = (l[j]?).map (f j) := by
  simpa using getElem?_mapWithIndexAux f 0 l j

theorem mapWithIndexAux_eq_self (f : Nat → α → α) (n : Nat) (l : List α)
    (h : ∀ j x, l[j]? = some x → f (n + j) x = x) : mapWithIndexAux f n l = l := by
  induction l generalizing n with
  | nil => rfl
  | cons x xs ih =>
    simp only [mapWithIndexAux]
    rw [show f n x = x by simpa using h 0 x (by simp)]
    rw [ih (n + 1) (fun j y hy => by
      have := h (j + 1) y (by simpa using hy)
      simpa [Nat.add_assoc, Nat.add_comm 1 j] using this)]

theorem mapWithIndex_eq_self (f : Nat → α → α) (l : List α)
    (h : ∀ j x, l[j]? = some x → f j x = x) : mapWithIndex f l = l :=
  mapWithIndexAux_eq_self f 0 l (by simpa using h)

theorem mapWithIndexAux_congr (f g : Nat → α → β) (n : Nat) (l : List α)
    (h : ∀ k x, f k x = g k x) : mapWithIndexAux f n l = mapWithIndexAux g n l := by
  induction l generalizing n with
  | nil => rfl
  | cons x xs ih => simp [mapWithIndexAux, h, ih]

theorem mapWithIndex_congr (f g : Nat → α → β) (l : List α)
    (h : ∀ k x, f k x = g k x) : mapWithIndex f l = mapWithIndex g l :=
  mapWithIndexAux_congr f g 0 l h

/-! ## C3: staged tolerant JSON parsing -/

/-- C3.  For every input string the tolerant parser attempts the fallbacks
in order — direct parse; parse of the sanitized string (fences stripped,
trimmed to the outermost brace/bracket span, trailing commas removed,
bare keys quoted); parse of the first balanced brace-or-bracket span —
and in particular `'{"a":1,}'`, a code-fenced `'{"a":1}'`, and
`'prefix {"a":1} suffix'` all recover `{a:1}`, while an input with no
extractable JSON span yields a parsing-failure error, not a value. -/
theorem robustJsonParse_staged_fallbacks :
    (∀ s v, jsonParse s = some v → robustJsonParse s = .ok v)
  ∧ (∀ s v, jsonParse s = none → jsonParse (sanitizeJsonString s) = some v →
      robustJsonParse s = .ok v)
  ∧ (∀ s m v, jsonParse s = none → jsonParse (sanitizeJsonString s) = none →
      extractJsonSpan s.data = some m → jsonParse (String.mk m) = some v →
      robustJsonParse s = .ok v)
  ∧ (∀ s, jsonParse s = none → jsonParse (sanitizeJsonString s) = none →
      extractJsonSpan s.data = none →
      robustJsonParse s = .error "Could not extract valid JSON from response")
  ∧ robustJsonParse "\x7b\"a\":1,\x7d" = .ok (.obj [("a", .num "1")])
  ∧ robustJsonParse "```json\n\x7b\"a\":1\x7d\n```" = .ok (.obj [("a", .num "1")])
  ∧ robustJsonParse "prefix \x7b\"a\":1\x7d suffix" = .ok (.obj [("a", .num "1")])
  ∧ robustJsonParse "hello world" = .error "Could not extract valid JSON from response" := by
  refine ⟨?_, ?_, ?_, ?_, rfl, rfl, rfl, rfl⟩
  · intro s v h
    simp [robustJsonParse, h]
  · intro s v h1 h2
    simp [robustJsonParse, h1, h2]
  · intro s m v h1 h2 h3 h4
    simp [robustJsonParse, h1, h2, h3, h4]
  · intro s h1 h2 h3
    simp [robustJsonParse, h1, h2, h3]

/-- Witness for C3: the staged theorem applied at the input `"1"`, where the
direct parse already succeeds. -/
theorem robustJsonParse_staged_fallbacks_witness :
    robustJsonParse "1" = .ok (.num "1") :=
  robustJsonParse_staged_fallbacks.1 "1" (.num "1") rfl

/-! ## C7: persistence fallback and the default collection -/

/-- Counterexample to C7 as stated: the load path's fallback collection does
not contain two completed items — evaluated at the concrete input `none`
(absent storage key), the returned seed list has exactly one completed
item among its four. -/
theorem loadLists_default_not_two_completed :
    ¬ (∃ ls, loadLists none = .inr ls ∧
        ((allItems ls).filter (fun item => item.completed)).length = 2) := by
  rintro ⟨ls, h1, h2⟩
  rw [show loadLists none = .inr getDefaultLists from rfl] at h1
  injection h1 with h
  subst h
  revert h2
  decide

/-- C7 (amended): when the storage key is absent or its value fails to
parse, the load path returns the fixed default collection — one seed list
with four sample items, ONE of which is marked complete — without
throwing (the initializer is total; parse errors are caught). -/
theorem loadLists_fallback_default :
    loadLists none = .inr getDefaultLists
  ∧ (∀ s, jsonParse s = none → loadLists (some s) = .inr getDefaultLists)
  ∧ getDefaultLists.length = 1
  ∧ (allItems getDefaultLists).length = 4
  ∧ ((allItems getDefaultLists).filter (fun item => item.completed)).length = 1 := by
  refine ⟨rfl, ?_, rfl, rfl, by decide⟩
  intro s h
  simp [loadLists, h]

/-- Witness for C7: the amended theorem applied to the corrupt stored value
`"not json"`. -/
theorem loadLists_fallback_default_witness :
    loadLists (some "not json") = .inr getDefaultLists :=
  loadLists_fallback_default.2.1 "not json" rfl

/-! ## C8: the reset action -/

/-- C8 names a real divergence between code and intent: the context-based
`clearAllData` (the one wired to the current `ListView`'s "Clear All"
button, whose own tooltip reads "Clear all lists and reset to default")
sets the in-memory collection to the EMPTY array after confirmation, not
to the default seed set; the standalone `ListView.tsx` variant of the
same function does reset to its defaults.  Evaluating both at concrete
inputs exhibits the divergence. -/
theorem clearAllData_empties_not_defaults :
    clearAllData true getDefaultLists = []
  ∧ getDefaultLists ≠ []
  ∧ clearAllDataLV true [] = getDefaultListsLV := by
  refine ⟨rfl, by decide, rfl⟩

/-! ## C5: each CRUD operation replaces exactly the targeted list -/

theorem crud_frame (g : α → α) (i : Nat) (l : List α) (j : Nat) (hj : j ≠ i) :
    (mapWithIndex (fun idx x => if idx = i then g x else x) l)[j]? = l[j]? := by
  rw [getElem?_mapWithIndex]
  cases l[j]? <;> simp [hj]

theorem crud_target (g : α → α) (i : Nat) (l : List α) :
    (mapWithIndex (fun idx x => if idx = i then g x else x) l)[i]? = (l[i]?).map g := by
  rw [getElem?_mapWithIndex]
  cases l[i]? <;> simp

/-- C5.  Every CRUD operation (add item, edit item text, rename title,
toggle completion, delete item, reorder) keeps the collection's length,
leaves every list at an index other than the target equal to the input
entry (in the pure embedding, the untouched entries of the `map` are the
input values themselves — the source shares them by reference and mutates
nothing in place), and replaces exactly the targeted list with the
operation's transform of it. -/
theorem crud_ops_frame_effect (lists : List ListData) (i : Nat)
    (_hi : i < lists.length) (newItemId itemId newValue newTitle : String)
    (newOrder : List Item) (j : Nat) (hj : j ≠ i) :
    ((addItem newItemId lists i).length = lists.length
      ∧ (addItem newItemId lists i)[j]? = lists[j]?
      ∧ (addItem newItemId lists i)[i]? = (lists[i]?).map (fun l =>
          { l with items := l.items ++ [{ id := newItemId, value := "", completed := false }] }))
  ∧ ((updateItem lists i itemId newValue).length = lists.length
      ∧ (updateItem lists i itemId newValue)[j]? = lists[j]?
      ∧ (updateItem lists i itemId newValue)[i]? = (lists[i]?).map (fun l =>
          { l with items := l.items.map (fun item =>
              if item.id = itemId then { item with value := newValue } else item) }))
  ∧ ((updateTitle lists i newTitle).length = lists.length
      ∧ (updateTitle lists i newTitle)[j]? = lists[j]?
      ∧ (updateTitle lists i newTitle)[i]? = (lists[i]?).map (fun l =>
          { l with title := newTitle }))
  ∧ ((toggleComplete lists i itemId).length = lists.length
      ∧ (toggleComplete lists i itemId)[j]? = lists[j]?
      ∧ (toggleComplete lists i itemId)[i]? = (lists[i]?).map (fun l =>
          { l with items := l.items.map (fun item =>
              if item.id = itemId then { item with completed := !item.completed } else item) }))
  ∧ ((deleteItem lists i itemId).length = lists.length
      ∧ (deleteItem lists i itemId)[j]? = lists[j]?
      ∧ (deleteItem lists i itemId)[i]? = (lists[i]?).map (fun l =>
          { l with items := l.items.filter (fun item => item.id ≠ itemId) }))
  ∧ ((reorderItems lists i newOrder).length = lists.length
      ∧ (reorderItems lists i newOrder)[j]? = lists[j]?
      ∧ (reorderItems lists i newOrder)[i]? = (lists[i]?).map (fun l =>
          { l with items := newOrder })) := by
  refine ⟨⟨length_mapWithIndex _ _, crud_frame _ i lists j hj, crud_target _ i lists⟩,
          ⟨length_mapWithIndex _ _, crud_frame _ i lists j hj, crud_target _ i lists⟩,
          ⟨length_mapWithIndex _ _, crud_frame _ i lists j hj, crud_target _ i lists⟩,
          ⟨length_mapWithIndex _ _, crud_frame _ i lists j hj, crud_target _ i lists⟩,
          ⟨length_mapWithIndex _ _, crud_frame _ i lists j hj, crud_target _ i lists⟩,
          ⟨length_mapWithIndex _ _, crud_frame _ i lists j hj, crud_target _ i lists⟩⟩

/-- Witness for C5: the frame theorem applied to the default collection,
target index 0, other index 1. -/
theorem crud_ops_frame_effect_witness :
    (addItem "id-new" getDefaultLists 0).length = getDefaultLists.length :=
  (crud_ops_frame_effect getDefaultLists 0 (by decide) "id-new" "item-1" "v" "t"
    [] 1 (by decide)).1.1

/-! ## C10: operations on an absent item identifier are no-ops -/

/-- C10.  When the targeted list contains no item with the given
identifier, `updateItem`, `deleteItem` and `toggleComplete` return a
collection equal to the input: nothing is modified and no error is
raised. -/
theorem crud_ops_missing_id_noop (lists : List ListData) (i : Nat)
    (hi : i < lists.length) (itemId newValue : String)
    (habs : ∀ item ∈ (lists.get ⟨i, hi⟩).items, item.id ≠ itemId) :
    updateItem lists i itemId newValue = lists
  ∧ deleteItem lists i itemId = lists
  ∧ toggleComplete lists i itemId = lists := by
  have hget : lists[i]? = some (lists.get ⟨i, hi⟩) := by
    simp [List.getElem?_eq_getElem hi]
  refine ⟨?_, ?_, ?_⟩ <;>
    refine mapWithIndex_eq_self _ lists (fun j x hx => ?_) <;>
    · by_cases hji : j = i
      · subst hji
        rw [hget] at hx
        injection hx with hx
        subst hx
        simp only [if_pos rfl]
        have hmap : ∀ (f : Item → Item), (∀ a ∈ (lists.get ⟨j, hi⟩).items, f a = a) →
            (lists.get ⟨j, hi⟩).items.map f = (lists.get ⟨j, hi⟩).items := by
          intro f hf
          rw [List.map_congr_left (g := id) (fun a ha => hf a ha)]
          exact List.map_id _
        first
        | (rw [hmap _ (fun a ha => by simp [habs a ha])])
        | (rw [List.filter_eq_self.2 (fun a ha => by simp [habs a ha])])
        simp
      · simp [hji]

/-- Witness for C10: the no-op theorem applied to the default collection
and an identifier that occurs in none of its items. -/
theorem crud_ops_missing_id_noop_witness :
    updateItem getDefaultLists 0 "item-404" "v" = getDefaultLists :=
  (crud_ops_missing_id_noop getDefaultLists 0 (by decide) "item-404" "v"
    (by decide)).1

/-! ## C2: a count mismatch aborts the regroup with no state change -/

/-- C2.  Whenever the reconciled candidate's total item count differs from
the pre-call total, `regroupListsWithAI` surfaces the explicit lost-items
error and ends with the lists untouched, no stored suggestion and no open
preview — nothing is committed (only `handleConfirmRegroup` ever calls
`replaceLists`). -/
theorem regroup_count_mismatch_aborts (mint : Nat → String) (s : ViewState)
    (r : AIReorganizeResponse) (c : List ListData)
    (hne : s.lists.length ≠ 0) (hnz : countItems s.lists ≠ 0)
    (hparse : parseAIResponse mint s.lists r = .ok c)
    (hcount : countItems c ≠ countItems s.lists) :
    regroupListsWithAI mint s (some r) =
      ({ s with isRegrouping := false, suggestedRegrouping := none
              , showRegroupPreview := false },
       some "Failed to regroup lists: Some items were lost during regrouping. Operation cancelled.")
    ∧ (regroupListsWithAI mint s (some r)).1.lists = s.lists := by
  have h : regroupListsWithAI mint s (some r) =
      ({ s with isRegrouping := false, suggestedRegrouping := none
              , showRegroupPreview := false },
       some "Failed to regroup lists: Some items were lost during regrouping. Operation cancelled.") := by
    simp [regroupListsWithAI, hne, hnz, hparse, hcount]
  exact ⟨h, by rw [h]⟩

/-- Witness for C2: a one-list, one-item state and a response whose
reconciliation yields two items; the abort theorem applies and the lists
survive unchanged. -/
theorem regroup_count_mismatch_aborts_witness :
    (regroupListsWithAI (fun n => "new-" ++ toString n)
      ⟨[⟨"L", "T", [⟨"a", "A", false⟩]⟩], false, false, none⟩
      (some { lists := some [⟨some "C", [⟨"a", "A", false⟩, ⟨"b", "B", false⟩]⟩] })).1.lists
    = [⟨"L", "T", [⟨"a", "A", false⟩]⟩] :=
  (regroup_count_mismatch_aborts (fun n => "new-" ++ toString n)
    ⟨[⟨"L", "T", [⟨"a", "A", false⟩]⟩], false, false, none⟩
    { lists := some [⟨some "C", [⟨"a", "A", false⟩, ⟨"b", "B", false⟩]⟩] }
    [⟨"new-0", "C", [⟨"a", "A", false⟩, ⟨"b", "B", false⟩]⟩]
    (by decide) (by decide) rfl (by decide)).2

/-! ## C1: what regroup success actually conserves -/

/-- Counterexample to C1 as stated: a response that lists the identifier
`"a"` twice and omits `"b"` is accepted as a success (the flow stores a
suggestion and shows no error, because only item COUNTS are compared),
yet the multiset of identifiers across the returned lists differs from
the input's — `"b"` is lost and `"a"` duplicated. -/
theorem regroup_accepts_duplicated_ids :
    (regroupListsWithAI (fun n => "cat-" ++ toString n)
      ⟨[⟨"L", "T", [⟨"a", "A", false⟩, ⟨"b", "B", false⟩]⟩], false, false, none⟩
      (some { lists := some [⟨some "C", [⟨"a", "x", false⟩, ⟨"a", "y", false⟩]⟩] })).2 = none
  ∧ (regroupListsWithAI (fun n => "cat-" ++ toString n)
      ⟨[⟨"L", "T", [⟨"a", "A", false⟩, ⟨"b", "B", false⟩]⟩], false, false, none⟩
      (some { lists := some [⟨some "C", [⟨"a", "x", false⟩, ⟨"a", "y", false⟩]⟩] })).1.suggestedRegrouping
      = some [⟨"cat-0", "C", [⟨"a", "x", false⟩, ⟨"a", "y", false⟩]⟩]
  ∧ (↑(allIds [⟨"cat-0", "C", [⟨"a", "x", false⟩, ⟨"a", "y", false⟩]⟩]) : Multiset String)
      ≠ ↑(allIds [(⟨"L", "T", [⟨"a", "A", false⟩, ⟨"b", "B", false⟩]⟩ : ListData)]) :=
  ⟨rfl, rfl, by decide⟩

/-- C1 (amended).  Whenever the regroup flow accepts a response as a
success (it ends showing no toast and stores a candidate for preview),
the TOTAL ITEM COUNT across the candidate's lists equals the pre-call
total, and the committed state is still untouched; identifier-level
conservation is not guaranteed (see the counterexample). -/
theorem regroup_success_count_conserved (mint : Nat → String) (s : ViewState)
    (api : Option AIReorganizeResponse) (s' : ViewState)
    (h : regroupListsWithAI mint s api = (s', none)) :
    ∃ c, s'.suggestedRegrouping = some c ∧ countItems c = countItems s.lists
      ∧ s'.lists = s.lists := by
  by_cases h0 : s.lists.length = 0
  · simp [regroupListsWithAI, h0] at h
  · by_cases hz : countItems s.lists = 0
    · simp [regroupListsWithAI, h0, hz] at h
    · cases api with
      | none => simp [regroupListsWithAI, h0, hz] at h
      | some r =>
        cases hp : parseAIResponse mint s.lists r with
        | error e => simp [regroupListsWithAI, h0, hz, hp] at h
        | ok newLists =>
          by_cases hc : countItems newLists = countItems s.lists
          · by_cases hl : newLists.length > 0
            · simp [regroupListsWithAI, h0, hz, hp, hc, hl, Prod.mk.injEq] at h
              refine ⟨newLists, ?_, hc, ?_⟩ <;> rw [← h]
            · simp [regroupListsWithAI, h0, hz, hp, hc, hl] at h
          · simp [regroupListsWithAI, h0, hz, hp, hc] at h

/-- Witness for C1: a regroup of two items into two categories is accepted,
and the amended theorem yields the conserved count. -/
theorem regroup_success_count_conserved_witness :
    ∃ c, (regroupListsWithAI (fun n => "cat-" ++ toString n)
      ⟨[⟨"L", "T", [⟨"a", "A", false⟩, ⟨"b", "B", false⟩]⟩], false, false, none⟩
      (some { lists := some [⟨some "C1", [⟨"a", "A", false⟩]⟩,
                             ⟨some "C2", [⟨"b", "B", false⟩]⟩] })).1.suggestedRegrouping
        = some c
    ∧ countItems c = countItems [(⟨"L", "T", [⟨"a", "A", false⟩, ⟨"b", "B", false⟩]⟩ : ListData)]
    ∧ (regroupListsWithAI (fun n => "cat-" ++ toString n)
      ⟨[⟨"L", "T", [⟨"a", "A", false⟩, ⟨"b", "B", false⟩]⟩], false, false, none⟩
      (some { lists := some [⟨some "C1", [⟨"a", "A", false⟩]⟩,
                             ⟨some "C2", [⟨"b", "B", false⟩]⟩] })).1.lists
        = [⟨"L", "T", [⟨"a", "A", false⟩, ⟨"b", "B", false⟩]⟩] :=
  regroup_success_count_conserved (fun n => "cat-" ++ toString n)
    ⟨[⟨"L", "T", [⟨"a", "A", false⟩, ⟨"b", "B", false⟩]⟩], false, false, none⟩
    (some { lists := some [⟨some "C1", [⟨"a", "A", false⟩]⟩,
                           ⟨some "C2", [⟨"b", "B", false⟩]⟩] })
    _ rfl

/-! ## C4: per-category reconciliation refines the described behavior -/

theorem reconcile_items_eq (lookup : String → Option Item) (items : List RItem) :
    ((items.map (fun item =>
        if item.id = "" ∨ item.value = "" then none
        else
          match lookup item.id with
          | some existingItem => some { existingItem with value := jsTrim item.value }
          | none => some { id := item.id, value := jsTrim item.value
                         , completed := item.completed })).filterMap id).filter
      (fun item => jsTrim item.value ≠ "")
    = items.filterMap (fun item =>
        if item.id = "" ∨ item.value = "" then none
        else
          let adopted :=
            match lookup item.id with
            | some existing => { existing with value := jsTrim item.value }
            | none => { id := item.id, value := jsTrim item.value
                      , completed := item.completed }
          if jsTrim adopted.value = "" then none else some adopted) := by
  induction items with
  | nil => rfl
  | cons x xs ih =>
    simp only [List.map_cons, List.filterMap_cons]
    by_cases h1 : x.id = "" ∨ x.value = ""
    · simpa [h1] using ih
    · cases hl : lookup x.id with
      | some ex =>
        by_cases h2 : jsTrim (jsTrim x.value) = ""
        · simpa [h1, hl, h2] using ih
        · simpa [h1, hl, h2] using ih
      | none =>
        by_cases h2 : jsTrim (jsTrim x.value) = ""
        · simpa [h1, hl, h2] using ih
        · simpa [h1, hl, h2] using ih

/-- C4.  On any response carrying a `lists` array, `parseAIResponse`
succeeds and produces, category by category, exactly the list described
by the claim (minted identifier; trimmed-or-defaulted title; items
dropped when id or value is missing; existing item's stored fields kept
with the AI's trimmed text on an id hit; synthesized otherwise;
empty-after-trim items dropped), with the identifier→item lookup taken
from the current state (last occurrence wins, as in the `Map` build). -/
theorem parseAIResponse_refines_spec (mint : Nat → String) (lists : List ListData)
    (r : AIReorganizeResponse) (cats : List RCategory) (hr : r.lists = some cats) :
    parseAIResponse mint lists r =
      .ok (mapWithIndex (fun k category =>
        reconcileCategorySpec (mint k) (itemLookup lists) category) cats) := by
  have hnorm : (if r.lists.isNone ∧ truthyStr r.title ∧ r.items.isSome then
      ({ lists := some [{ title := r.title, items := r.items.getD [] }] }
        : AIReorganizeResponse)
    else r) = r := by
    simp [hr]
  unfold parseAIResponse
  rw [hnorm]
  simp only [hr]
  congr 1
  refine mapWithIndex_congr _ _ cats (fun k category => ?_)
  unfold reconcileCategorySpec
  congr 1
  · cases category.title with
    | none => rfl
    | some t => rfl
  · exact reconcile_items_eq (itemLookup lists) category.items

/-- Witness for C4: the refinement theorem applied to a concrete response
with one category containing a known, an unknown and a blank-text item. -/
theorem parseAIResponse_refines_spec_witness :
    parseAIResponse (fun n => "cat-" ++ toString n)
      [⟨"L", "T", [⟨"a", "old", true⟩]⟩]
      { lists := some [⟨some "  C  ", [⟨"a", " new ", false⟩, ⟨"b", "fresh", true⟩,
                                       ⟨"c", "  ", false⟩]⟩] }
    = .ok (mapWithIndex (fun k category =>
        reconcileCategorySpec ((fun n => "cat-" ++ toString n) k)
          (itemLookup [⟨"L", "T", [⟨"a", "old", true⟩]⟩]) category)
        [⟨some "  C  ", [⟨"a", " new ", false⟩, ⟨"b", "fresh", true⟩,
                         ⟨"c", "  ", false⟩]⟩]) :=
  parseAIResponse_refines_spec (fun n => "cat-" ++ toString n)
    [⟨"L", "T", [⟨"a", "old", true⟩]⟩]
    { lists := some [⟨some "  C  ", [⟨"a", " new ", false⟩, ⟨"b", "fresh", true⟩,
                                     ⟨"c", "  ", false⟩]⟩] }
    [⟨some "  C  ", [⟨"a", " new ", false⟩, ⟨"b", "fresh", true⟩,
                     ⟨"c", "  ", false⟩]⟩] rfl

/-! ## C6: generation response normalization and append -/

theorem strNormalize_map (ss : List String) :
    (ss.map Json.str).map
      (fun item => match item with | Json.str s => s | j => jsToString j) = ss := by
  induction ss with
  | nil => rfl
  | cons x xs ih =>
    simp only [List.map_cons, ih]

theorem genOutcome_of_core (mint : Nat → String) (result : Json)
    (items : List String) (htruthy : jsTruthy result = true)
    (hcore : generateItemsCore result = .ok items) :
    genOutcome mint (some result)
      = some (mapWithIndex (fun k itemValue =>
          { id := mint k, value := jsTrim itemValue, completed := false })
          (items.filter (fun item => jsTrim item ≠ ""))) := by
  simp [genOutcome, htruthy, hcore]

/-- Counterexample to C6 as stated: the generation flow does NOT filter
out non-string entries — `result.map(item => typeof item === 'string' ?
item : String(item))` coerces them, and the later filter only removes
empty-after-trim strings.  On the concrete reply `["x", 5, "y"]` the
target list gains THREE items `"x"`, `"5"`, `"y"` (the number survives,
coerced), not the two items that filtering non-string entries would
leave. -/
theorem generateItems_coerces_nonstring_entries :
    generateItemsStep (fun n => "g-" ++ toString n)
      [⟨"L", "T", [⟨"a", "seed", false⟩]⟩] 0
      (some (Json.arr [.str "x", .num "5", .str "y"]))
    = [⟨"L", "T", [⟨"a", "seed", false⟩, ⟨"g-0", "x", false⟩,
                   ⟨"g-1", "5", false⟩, ⟨"g-2", "y", false⟩]⟩]
  ∧ generateItemsStep (fun n => "g-" ++ toString n)
      [⟨"L", "T", [⟨"a", "seed", false⟩]⟩] 0
      (some (Json.arr [.str "x", .num "5", .str "y"]))
    ≠ [⟨"L", "T", [⟨"a", "seed", false⟩, ⟨"g-0", "x", false⟩,
                   ⟨"g-1", "y", false⟩]⟩] := by
  have hcore : generateItemsCore (Json.arr [.str "x", .num "5", .str "y"])
      = .ok ["x", "5", "y"] := by
    simp [generateItemsCore, jsToString]
  have hout : genOutcome (fun n => "g-" ++ toString n)
        (some (Json.arr [.str "x", .num "5", .str "y"]))
      = some [⟨"g-0", "x", false⟩, ⟨"g-1", "5", false⟩, ⟨"g-2", "y", false⟩] := by
    rw [genOutcome_of_core _ (Json.arr [.str "x", .num "5", .str "y"])
      ["x", "5", "y"] rfl hcore]
    rfl
  have h1 : generateItemsStep (fun n => "g-" ++ toString n)
        [⟨"L", "T", [⟨"a", "seed", false⟩]⟩] 0
        (some (Json.arr [.str "x", .num "5", .str "y"]))
      = [⟨"L", "T", [⟨"a", "seed", false⟩, ⟨"g-0", "x", false⟩,
                     ⟨"g-1", "5", false⟩, ⟨"g-2", "y", false⟩]⟩] := by
    unfold generateItemsStep
    rw [hout]
    rfl
  exact ⟨h1, by rw [h1]; decide⟩

/-- C6 (amended).  The generation flow normalizes the reply across its
possible shapes (bare array; object with an `items` array; object with a
`text` field containing a JSON array; other object shapes stringified as
a single fallback item), COERCES non-string entries to strings with
`String()` instead of filtering them out (see the counterexample), drops
only entries that are empty after trimming, and appends the new items
(trimmed text, `completed := false`) after the target list's existing
items in the order received, leaving every other list unchanged; the
reply `["x","y","","z"]` yields exactly three new items `x`, `y`, `z`,
whose minted identifiers are pairwise distinct provided the modelled
`Date.now`+`Math.random` mint never repeats (an injectivity
hypothesis — the source does not enforce it). -/
theorem generateItems_normalizes_and_appends (mint : Nat → String)
    (lists : List ListData) (i : Nat) (list : ListData)
    (hlist : lists[i]? = some list)
    (hmint : ∀ a b : Nat, mint a = mint b → a = b) :
    (∀ ss : List String, generateItemsCore (Json.arr (ss.map Json.str)) = .ok ss)
  ∧ (∀ ss : List String,
      generateItemsCore (Json.obj [("items", Json.arr (ss.map Json.str))]) = .ok ss)
  ∧ (∀ t ss, jsonParse t = some (Json.arr (ss.map Json.str)) →
      generateItemsCore (Json.obj [("text", Json.str t)]) = .ok ss)
  ∧ generateItemsCore (Json.obj [("foo", Json.num "1")])
      = .ok [jsonStringify (Json.obj [("foo", Json.num "1")])]
  ∧ generateItemsCore (Json.arr [.str "x", .num "5", Json.null, .bool true])
      = .ok ["x", "5", "null", "true"]
  ∧ (generateItemsStep mint lists i
        (some (Json.arr [.str "x", .str "y", .str "", .str "z"])))[i]?
      = some { list with items := list.items ++
          [⟨mint 0, "x", false⟩, ⟨mint 1, "y", false⟩, ⟨mint 2, "z", false⟩] }
  ∧ (generateItemsStep mint lists i
        (some (Json.arr [.str "x", .num "5", .str "", .str "y"])))[i]?
      = some { list with items := list.items ++
          [⟨mint 0, "x", false⟩, ⟨mint 1, "5", false⟩, ⟨mint 2, "y", false⟩] }
  ∧ (∀ j, j ≠ i → (generateItemsStep mint lists i
        (some (Json.arr [.str "x", .str "y", .str "", .str "z"])))[j]? = lists[j]?)
  ∧ (mint 0 ≠ mint 1 ∧ mint 0 ≠ mint 2 ∧ mint 1 ≠ mint 2) := by
  have hout : genOutcome mint (some (Json.arr [.str "x", .str "y", .str "", .str "z"]))
      = some [⟨mint 0, "x", false⟩, ⟨mint 1, "y", false⟩, ⟨mint 2, "z", false⟩] := rfl
  have hstep : generateItemsStep mint lists i
        (some (Json.arr [.str "x", .str "y", .str "", .str "z"]))
      = reorderItems lists i (list.items ++
          [⟨mint 0, "x", false⟩, ⟨mint 1, "y", false⟩, ⟨mint 2, "z", false⟩]) := by
    unfold generateItemsStep
    rw [hlist, hout]
  have hcore2 : generateItemsCore (Json.arr [.str "x", .num "5", .str "", .str "y"])
      = .ok ["x", "5", "", "y"] := by
    simp [generateItemsCore, jsToString]
  have hout2 : genOutcome mint (some (Json.arr [.str "x", .num "5", .str "", .str "y"]))
      = some [⟨mint 0, "x", false⟩, ⟨mint 1, "5", false⟩, ⟨mint 2, "y", false⟩] := by
    rw [genOutcome_of_core mint (Json.arr [.str "x", .num "5", .str "", .str "y"])
      ["x", "5", "", "y"] rfl hcore2]
    rfl
  have hstep2 : generateItemsStep mint lists i
        (some (Json.arr [.str "x", .num "5", .str "", .str "y"]))
      = reorderItems lists i (list.items ++
          [⟨mint 0, "x", false⟩, ⟨mint 1, "5", false⟩, ⟨mint 2, "y", false⟩]) := by
    unfold generateItemsStep
    rw [hlist, hout2]
  refine ⟨?_, ?_, ?_, rfl, ?_, ?_, ?_, ?_, ?_⟩
  · intro ss
    exact congrArg Except.ok (strNormalize_map ss)
  · intro ss
    exact congrArg Except.ok (strNormalize_map ss)
  · intro t ss h
    have hred : generateItemsCore (Json.obj [("text", Json.str t)]) =
        (match jsonParse t with
         | some (Json.arr xs) => Except.ok (xs.map (fun item =>
             match item with | Json.str s => s | j => jsToString j))
         | _ => Except.ok [t]) := rfl
    rw [hred, h]
    exact congrArg Except.ok (strNormalize_map ss)
  · simp [generateItemsCore, jsToString]
  · rw [hstep, reorderItems, crud_target, hlist]
    rfl
  · rw [hstep2, reorderItems, crud_target, hlist]
    rfl
  · intro j hj
    rw [hstep, reorderItems]
    exact crud_frame _ i lists j hj
  · refine ⟨fun h => ?_, fun h => ?_, fun h => ?_⟩ <;>
      first
      | exact absurd (hmint 0 1 h) (by decide)
      | exact absurd (hmint 0 2 h) (by decide)
      | exact absurd (hmint 1 2 h) (by decide)

/-- Witness for C6: the normalization theorem applied to the default
collection with the length-injective mint `n ↦ "a"*n`. -/
theorem generateItems_normalizes_and_appends_witness :
    generateItemsCore (Json.arr (["x"].map Json.str)) = .ok ["x"] :=
  (generateItems_normalizes_and_appends (fun n => String.mk (List.replicate n 'a'))
    getDefaultLists 0 _ rfl
    (fun a b h => by
      have hd := congrArg String.data h
      simp at hd
      omega)).1 ["x"]

/-! ## C9: item-identifier uniqueness along operation traces -/

open List

/-- The identifiers of one list's items. -/
def idsOf (l : ListData) : List String :=
  l.items.map (fun item => item.id)

/-- Apply `g` to the element at one position (the normal form of the CRUD
operations' `map` over indices). -/
def setAt (g : ListData → ListData) (i : Nat) (s : List ListData) : List ListData :=
  match s, i with
  | [], _ => []
  | l :: rest, 0 => g l :: rest
  | l :: rest, i + 1 => l :: setAt g i rest

theorem mapWithIndexAux_of_gt (g : ListData → ListData) (i n : Nat)
    (s : List ListData) (h : i < n) :
    mapWithIndexAux (fun idx l => if idx = i then g l else l) n s = s := by
  induction s generalizing n with
  | nil => rfl
  | cons l rest ih =>
    have hne : n ≠ i := by omega
    simp only [mapWithIndexAux, if_neg hne]
    rw [ih (n + 1) (by omega)]

theorem mapWithIndexAux_eq_setAt (g : ListData → ListData) (i n : Nat)
    (s : List ListData) (h : n ≤ i) :
    mapWithIndexAux (fun idx l => if idx = i then g l else l) n s
      = setAt g (i - n) s := by
  induction s generalizing n with
  | nil => simp [mapWithIndexAux, setAt]
  | cons l rest ih =>
    by_cases hni : n = i
    · subst hni
      simp only [mapWithIndexAux, if_pos rfl, Nat.sub_self, setAt, if_true]
      rw [mapWithIndexAux_of_gt g n (n + 1) rest (by omega)]
    · have hlt : n < i := by omega
      rw [show i - n = (i - (n + 1)) + 1 by omega]
      simp only [mapWithIndexAux, if_neg hni, setAt]
      rw [ih (n + 1) (by omega)]

theorem crudMap_eq_setAt (g : ListData → ListData) (i : Nat) (s : List ListData) :
    mapWithIndex (fun idx l => if idx = i then g l else l) s = setAt g i s := by
  simpa using mapWithIndexAux_eq_setAt g i 0 s (Nat.zero_le i)

theorem allIds_cons (l : ListData) (rest : List ListData) :
    allIds (l :: rest) = idsOf l ++ allIds rest := by
  simp [allIds, allItems, idsOf]

theorem allIds_append (a b : List ListData) :
    allIds (a ++ b) = allIds a ++ allIds b := by
  simp [allIds, allItems]

theorem perm_append_rotate (a e r : List String) : (a ++ e) ++ r ~ (a ++ r) ++ e := by
  calc (a ++ e) ++ r = a ++ (e ++ r) := by rw [List.append_assoc]
    _ ~ a ++ (r ++ e) := List.Perm.append_left a List.perm_append_comm
    _ = (a ++ r) ++ e := by rw [List.append_assoc]

theorem allIds_setAt_eq (g : ListData → ListData) (hg : ∀ l, idsOf (g l) = idsOf l)
    (i : Nat) (s : List ListData) : allIds (setAt g i s) = allIds s := by
  induction s generalizing i with
  | nil => simp [setAt]
  | cons l rest ih =>
    cases i with
    | zero => simp only [setAt, allIds_cons, hg]
    | succ i => simp only [setAt, allIds_cons, ih]

theorem allIds_setAt_sublist (g : ListData → ListData)
    (hg : ∀ l, idsOf (g l) <+ idsOf l) (i : Nat) (s : List ListData) :
    allIds (setAt g i s) <+ allIds s := by
  induction s generalizing i with
  | nil => simp [setAt]
  | cons l rest ih =>
    cases i with
    | zero =>
      simp only [setAt, allIds_cons]
      exact (hg l).append (Sublist.refl _)
    | succ i =>
      simp only [setAt, allIds_cons]
      exact (Sublist.refl _).append (ih i)

theorem allIds_setAt_subperm (g : ListData → ListData) (i : Nat)
    (s : List ListData) (extra : List String)
    (hg : ∀ l, s[i]? = some l → idsOf (g l) = idsOf l ++ extra) :
    allIds (setAt g i s) <+~ allIds s ++ extra := by
  induction s generalizing i with
  | nil =>
    cases i <;> simp [setAt, allIds, allItems]
  | cons l rest ih =>
    cases i with
    | zero =>
      have h0 : idsOf (g l) = idsOf l ++ extra := hg l (by simp)
      simp only [setAt, allIds_cons, h0]
      exact (perm_append_rotate (idsOf l) extra (allIds rest)).subperm
    | succ i =>
      simp only [setAt, allIds_cons]
      rw [List.append_assoc]
      exact (List.subperm_append_left (idsOf l)).mpr
        (ih i (fun x hx => hg x (by simpa using hx)))

theorem allIds_applyOp_subperm (s : List ListData) (op : Op) :
    allIds (applyOp s op) <+~ allIds s ++ mintedIds op := by
  cases op with
  | addList newListId =>
    simp only [applyOp, addList, mintedIds, allIds_append, List.append_nil]
    simpa [allIds, allItems] using Subperm.refl (allIds s)
  | addItem listIndex newItemId =>
    simp only [applyOp, addItem, mintedIds]
    rw [crudMap_eq_setAt]
    exact allIds_setAt_subperm _ _ _ _ (fun l _ => by simp [idsOf])
  | updateItem listIndex itemId newValue =>
    simp only [applyOp, updateItem, mintedIds]
    rw [crudMap_eq_setAt,
      allIds_setAt_eq _ (fun l => by
        simp only [idsOf, List.map_map]
        exact List.map_congr_left (fun a _ => by
          by_cases h : a.id = itemId <;> simp [h])),
      List.append_nil]
  | updateTitle listIndex newTitle =>
    simp only [applyOp, updateTitle, mintedIds]
    rw [crudMap_eq_setAt,
      allIds_setAt_eq (fun l => { l with title := newTitle }) (fun l => rfl),
      List.append_nil]
  | deleteItem listIndex itemId =>
    simp only [applyOp, deleteItem, mintedIds]
    rw [crudMap_eq_setAt]
    have h := allIds_setAt_sublist
      (fun l => { l with items := l.items.filter (fun item => item.id ≠ itemId) })
      (fun l => (List.filter_sublist l.items).map _) listIndex s
    simpa using h.subperm
  | toggleComplete listIndex itemId =>
    simp only [applyOp, toggleComplete, mintedIds]
    rw [crudMap_eq_setAt,
      allIds_setAt_eq _ (fun l => by
        simp only [idsOf, List.map_map]
        exact List.map_congr_left (fun a _ => by
          by_cases h : a.id = itemId <;> simp [h])),
      List.append_nil]
  | generate listIndex mint apiResult =>
    simp only [applyOp, generateItemsStep]
    cases h1 : s[listIndex]? with
    | none =>
      exact (List.sublist_append_left _ _).subperm
    | some list =>
      cases h2 : genOutcome mint apiResult with
      | none => exact (List.sublist_append_left _ _).subperm
      | some newItems =>
        simp only [reorderItems]
        rw [crudMap_eq_setAt,
          show mintedIds (.generate listIndex mint apiResult)
            = newItems.map (fun item => item.id) by simp [mintedIds, h2]]
        exact allIds_setAt_subperm _ _ _ _ (fun l hl => by
          rw [h1] at hl
          injection hl with hl
          subst hl
          simp [idsOf])

theorem nodup_allIds_applyOp (s : List ListData) (op : Op)
    (hn : (allIds s).Nodup) (hf : FreshOp s op) :
    (allIds (applyOp s op)).Nodup := by
  obtain ⟨l, hp, hs⟩ := allIds_applyOp_subperm s op
  have h2 : (allIds s ++ mintedIds op).Nodup := by
    rw [List.nodup_append]
    exact ⟨hn, hf.1, fun a ha ha' => hf.2 a ha' ha⟩
  exact hp.nodup_iff.mp (h2.sublist hs)

/-- C9 (amended).  Along any trace of operations (add list, add item, AI
generation, plus the non-creating edits) in which every minted
identifier is fresh — distinct from the identifiers already in the state
and from the other identifiers minted by the same operation — the item
identifiers of the resulting collection are pairwise distinct across all
lists.  The freshness hypothesis is exactly what the source's
`Date.now()`-based minting does NOT guarantee (see the counterexample
where two adds fall in the same millisecond). -/
theorem item_ids_nodup_applyOps (s : List ListData) (ops : List Op)
    (hn : (allIds s).Nodup) (hf : FreshTrace s ops) :
    (allIds (applyOps s ops)).Nodup := by
  induction ops generalizing s with
  | nil => simpa [applyOps] using hn
  | cons op ops ih =>
    exact ih (applyOp s op) (nodup_allIds_applyOp s op hn hf.1) hf.2

/-- Witness for C9: a fresh add-item, add-list, delete trace from the
default collection keeps all item identifiers pairwise distinct. -/
theorem item_ids_nodup_applyOps_witness :
    (allIds (applyOps getDefaultLists
      [Op.addItem 0 "id-100", Op.addList "L2", Op.deleteItem 0 "item-2"])).Nodup :=
  item_ids_nodup_applyOps getDefaultLists
    [Op.addItem 0 "id-100", Op.addList "L2", Op.deleteItem 0 "item-2"]
    (by decide)
    ⟨⟨by decide, by decide⟩, ⟨by decide, by decide⟩, ⟨by decide, by decide⟩, trivial⟩

/-- Counterexample to C9 as stated: `addItem` mints
`Date.now().toString()`, so two add-item operations landing in the same
millisecond mint the SAME identifier; after this concrete two-operation
sequence the collection holds two items with identifier `"1700000000000"`
in the same list, so identifiers are not pairwise distinct. -/
theorem item_ids_duplicate_same_millisecond :
    ¬ (allIds (applyOps getDefaultLists
        [Op.addItem 0 "1700000000000", Op.addItem 0 "1700000000000"])).Nodup := by
  decide

end Inda
